import Mathlib

/-!
Verification of the repository layer of a FastAPI project template.

The embedded code consists of three source files:
* `utils/tools.py` — `build_filters`, which turns a flat mapping of
  field names (optionally dotted as `relationship__field`) into query
  joins and equality predicates;
* `utils/repositories.py` — `BaseRepository`, a generic repository over
  one SQLAlchemy mapped class (get / find_by / first / last / update /
  all_paginated / exists / ...);
* `utils/response.py` — generic response envelope models.

The model: a table is a list of rows, a row is an association list from
column name to value, and each repository method is given the relational
semantics of the single SQL statement it issues.  Python `None` / SQL
NULL is `Value.vNone`; a fallible operation returns `Option` (an
uncaught `AttributeError` or a database-level error, i.e. the call never
produces a value) or an explicit outcome type mirroring the error
taxonomy (`NotFoundError`, `DatabaseError`, `UnprocessableError`,
SQLAlchemy's `MultipleResultsFound`).
-/

/-- A column value: a string, an integer, or SQL NULL (Python `None`).
The scalar types relevant to the claims; strings model the ASCII
fragment of Python `str`. -/
inductive Value where
  | vStr  : String → Value
  | vInt  : Int → Value
  | vNone : Value
deriving DecidableEq, Repr

/-- A row of a table: an association list from column name to value. -/
abbrev Row := List (String × Value)

/-- Column access on a row: the value stored under the first occurrence
of the column name, if any. -/
def rowGet (r : Row) (k : String) : Option Value :=
  (r.find? (fun kv => decide (kv.1 = k))).map (fun kv => kv.2)

/-- SQL semantics of `column == literal` as SQLAlchemy renders it: a
Python `None` literal becomes `IS NULL` (matching exactly a stored
NULL), any other literal is SQL equality, under which a stored NULL
matches nothing.  With NULL modelled as `Value.vNone`, both cases are
equality with the stored value. -/
def litEq (stored : Option Value) (v : Value) : Bool :=
  decide (stored = some v)

/-- SQL equality between two columns (the ON clause of a relationship
join): NULL on either side compares unknown, so the rows do not join. -/
def joinEq (a b : Option Value) : Bool :=
  match a, b with
  | some x, some y =>
      decide (x ≠ Value.vNone) && decide (y ≠ Value.vNone) && decide (x = y)
  | _, _ => false

/-- A one-hop relationship declared on a mapped class: the related
class's columns and table contents, and the pair of columns equated by
the join's ON clause (`relationship.property.mapper.class_` resolved at
registration time, per the spec's field-descriptor reading). -/
structure RelDescr where
  relatedFields : List String
  relatedRows : List Row
  rootKey : String
  relKey : String
deriving DecidableEq, Repr

/-- A mapped class together with its table contents: declared column
names, declared relationships (name to descriptor), and the current
rows of the backing table. -/
structure SchemaClass where
  fields : List String
  rels : List (String × RelDescr)
  rows : List Row
deriving DecidableEq, Repr

/-- One result tuple of an in-progress query: the root row plus the
related row bound by each relationship join performed so far. -/
structure Tuple where
  root : Row
  binds : List (String × Row)
deriving DecidableEq, Repr

/-- An in-progress query (`select(schema_class)` plus accumulated joins,
predicates and eager-load options), represented by its result tuples. -/
structure Query where
  tuples : List Tuple
  joined : List String
  eager  : List String
deriving DecidableEq, Repr

/-- `select(self.schema_class)`: one tuple per table row, no joins. -/
def selectQ (sc : SchemaClass) : Query :=
  { tuples := sc.rows.map (fun r => { root := r, binds := [] })
    joined := []
    eager := [] }

/-- `query.join(getattr(schema_class, relationship))`.  An unknown
relationship accessor raises `AttributeError` (`none`).  Joining a
relationship that is already present is skipped (SQLAlchemy warns and
does not add a second unaliased join of the same relationship, so the
later predicates address the one joined table).  Otherwise each tuple
is paired with every related row matching the ON clause. -/
def joinRel (sc : SchemaClass) (q : Query) (relName : String) : Option Query :=
  match sc.rels.lookup relName with
  | none => none
  | some R =>
    if relName ∈ q.joined then some q
    else some { q with
      tuples := q.tuples.flatMap (fun t =>
        (R.relatedRows.filter (fun rr =>
            joinEq (rowGet t.root R.rootKey) (rowGet rr R.relKey))).map
          (fun rr => { t with binds := (relName, rr) :: t.binds }))
      joined := relName :: q.joined }

/-- `query.filter(getattr(related_class, field) == value)`: keep the
tuples whose row bound for `relName` satisfies the equality.  An
unknown field of the related class raises `AttributeError` (`none`). -/
def filterRel (q : Query) (R : RelDescr) (relName field : String) (v : Value) :
    Option Query :=
  if field ∈ R.relatedFields then
    some { q with tuples := q.tuples.filter (fun t =>
      match t.binds.lookup relName with
      | some rr => litEq (rowGet rr field) v
      | none => false) }
  else none

/-- `query.filter(getattr(schema_class, attr) == value)` for a plain
(non-dotted) key: equality directly against the root mapped class.  An
unknown attribute raises `AttributeError` (`none`). -/
def filterRoot (sc : SchemaClass) (q : Query) (attr : String) (v : Value) :
    Option Query :=
  if attr ∈ sc.fields then
    some { q with tuples := q.tuples.filter (fun t =>
      litEq (rowGet t.root attr) v) }
  else none

/-- Locate the first occurrence of the two-character separator in a
character list, returning the parts before and after it (the semantics
of Python `attr.split(sep, 1)` when `sep in attr`). -/
def findSep : List Char → Option (List Char × List Char)
  | [] => none
  | c :: cs =>
    if c = '_' then
      match cs with
      | c2 :: rest =>
        if c2 = '_' then some ([], rest)
        else (findSep cs).map (fun p => (c :: p.1, p.2))
      | [] => none
    else (findSep cs).map (fun p => (c :: p.1, p.2))

/-- Python `'__' in attr` and `attr.split('__', 1)` combined: `none`
when the separator does not occur, otherwise the parts around its first
occurrence. -/
def splitRel (attr : String) : Option (String × String) :=
  (findSep attr.data).map (fun p => (String.mk p.1, String.mk p.2))

/-- `build_filters(schema_class, query, filters)` from `utils/tools.py`:
for each entry whose key contains the separator, resolve the
relationship, join it and apply the equality predicate against the
related class's field; for each plain key apply the equality predicate
against the root class. -/
def build_filters (schema_class : SchemaClass) (query : Query)
    (filters : List (String × Value)) : Option Query :=
  filters.foldlM (fun q af =>
    match splitRel af.1 with
    | some rf =>
      match schema_class.rels.lookup rf.1 with
      | none => none
      | some R =>
        (joinRel schema_class q rf.1).bind
          (fun q2 => filterRel q2 R rf.1 rf.2 af.2)
    | none => filterRoot schema_class q af.1 af.2) query

/-- `query.options(selectinload(getattr(schema_class, relationship)))`
for each requested eager load: an unknown relationship accessor raises
`AttributeError` (`none`); a valid one is recorded and does not change
the result rows. -/
def applyEager (sc : SchemaClass) (q : Query) (relationships : List String) :
    Option Query :=
  relationships.foldlM (fun q rel =>
    if (sc.rels.lookup rel).isSome then
      some { q with eager := q.eager ++ [rel] }
    else none) q

/-- The mapping returned by `_all_paginated`. -/
structure Paginated where
  total_count : Nat
  page : Int
  page_size : Int
  result : List Row
deriving DecidableEq, Repr

/-- The query `_all_paginated` builds before windowing: eager-load
options, then `build_filters` when a non-empty filter mapping was
given. -/
def paginationQuery (sc : SchemaClass) (relationships : List String)
    (filters : List (String × Value)) : Option Query :=
  (applyEager sc (selectQ sc) relationships).bind (fun q =>
    if filters.isEmpty then some q else build_filters sc q filters)

/-- `BaseRepository._all_paginated(page, page_size, relationships,
filters)`: build the filtered query, count its rows before any
windowing (`with_only_columns(func.count())`), then apply
`offset = (page - 1) * page_size` and `limit = page_size` and return
the page.  `page` and `page_size` are unvalidated Python integers; a
negative LIMIT or OFFSET is rejected by the database (`none`). -/
def _all_paginated (sc : SchemaClass) (page page_size : Int)
    (relationships : List String) (filters : List (String × Value)) :
    Option Paginated :=
  (paginationQuery sc relationships filters).bind (fun q =>
    if page_size < 0 || (page - 1) * page_size < 0 then none
    else some
      { total_count := q.tuples.length
        page := page
        page_size := page_size
        result := ((q.tuples.drop ((page - 1) * page_size).toNat).take
          page_size.toNat).map Tuple.root })

/-- Python `str.lower()` on the ASCII fragment. -/
def pyLower (s : String) : String :=
  String.mk (s.data.map Char.toLower)

/-- A character Python `str.strip()` removes. -/
def isPySpace (c : Char) : Bool :=
  c = ' ' || c = '\t' || c = '\n' || c = '\r' || c = '\x0b' || c = '\x0c'

/-- Python `str.strip()`: drop whitespace from both ends. -/
def pyStrip (s : String) : String :=
  String.mk (((s.data.dropWhile isPySpace).reverse.dropWhile isPySpace).reverse)

/-- The normalization `_exists` applies to each caller-supplied filter
value: `value.strip().lower()` when it is a string, identity
otherwise.  Stored column values are never normalized. -/
def pyNormalize (v : Value) : Value :=
  match v with
  | Value.vStr s => Value.vStr (pyLower (pyStrip s))
  | v => v

/-- The condition list comprehension of `_exists`: one predicate per
filter entry, with the filter value normalized; the first key that is
not an attribute of the mapped class raises `AttributeError`, which
`_exists` converts to `UnprocessableError` carrying the key. -/
def buildConditions (sc : SchemaClass) :
    List (String × Value) → Except String (List (Row → Bool))
  | [] => Except.ok []
  | kv :: rest =>
    if kv.1 ∈ sc.fields then
      match buildConditions sc rest with
      | Except.ok cs =>
          Except.ok ((fun r => litEq (rowGet r kv.1) (pyNormalize kv.2)) :: cs)
      | Except.error k => Except.error k
    else Except.error kv.1

/-- `BaseRepository._exists(filters)`: build the normalized equality
conditions, select rows matching `or_(*conditions)` and report whether
`scalars().first()` found one.  `Except.error k` is the
`UnprocessableError` raised for an invalid attribute `k`. -/
def _exists (sc : SchemaClass) (filters : List (String × Value)) :
    Except String Bool :=
  match buildConditions sc filters with
  | Except.error k => Except.error k
  | Except.ok conditions =>
      Except.ok (sc.rows.any (fun r => conditions.any (fun c => c r)))

/-- Outcome of a single-row fetch (`find_by`, `_get`): an uncaught
`AttributeError` from an unknown attribute, SQLAlchemy's
`MultipleResultsFound` from `scalar_one_or_none` /
`scalars().one_or_none` on a multi-row result, a row, or a zero-row
result (returned as `None` by `find_by`, raised as `NotFoundError` by
`_get`). -/
inductive FindResult where
  | attrError
  | multiError
  | found (r : Row)
  | notFound
deriving DecidableEq, Repr

/-- `BaseRepository.find_by(filters, relationships)`: eager-load
options, an AND-conjunction of equality predicates built directly with
`getattr(self.schema_class, key)` (no dotted-key handling), then
`scalar_one_or_none`. -/
def find_by (sc : SchemaClass) (filters : List (String × Value))
    (relationships : List String) : FindResult :=
  if relationships.all (fun rel => (sc.rels.lookup rel).isSome) then
    if filters.all (fun kv => decide (kv.1 ∈ sc.fields)) then
      match sc.rows.filter (fun r =>
          filters.all (fun kv => litEq (rowGet r kv.1) kv.2)) with
      | [] => FindResult.notFound
      | [r] => FindResult.found r
      | _ => FindResult.multiError
    else FindResult.attrError
  else FindResult.attrError

/-- `BaseRepository._get(id_, relationships)`: select by
`schema_class.id == id_` with optional eager loads, then
`scalars().one_or_none()`; a zero-row result raises `NotFoundError`
(`FindResult.notFound`). -/
def _get (sc : SchemaClass) (id_ : Int) (relationships : List String) :
    FindResult :=
  if relationships.all (fun rel => (sc.rels.lookup rel).isSome) then
    match sc.rows.filter (fun r =>
        litEq (rowGet r "id") (Value.vInt id_)) with
    | [] => FindResult.notFound
    | [r] => FindResult.found r
    | _ => FindResult.multiError
  else FindResult.attrError

/-- Outcome of `_update`: an error from an unknown key or payload
column, `DatabaseError` (zero rows updated), `MultipleResultsFound`
from `scalar_one_or_none` on a multi-row RETURNING, or the returned
updated row. -/
inductive UpdateResult where
  | attrError
  | dbError
  | multiError
  | updated (r : Row)
deriving DecidableEq, Repr

/-- `SET k = v` applied to one row: every binding of column `k` gets
the new value, other columns are untouched. -/
def setCol (r : Row) (k : String) (v : Value) : Row :=
  r.map (fun kv => if kv.1 = k then (kv.1, v) else kv)

/-- `.values(payload)` applied to one row: set each payload column. -/
def applyPayload (payload : List (String × Value)) (r : Row) : Row :=
  payload.foldl (fun r kv => setCol r kv.1 kv.2) r

/-- `BaseRepository._update(key, value, payload)`:
`update(schema_class).where(key == value).values(payload).returning(...)`
followed by `scalar_one_or_none`.  Returns the table state after the
statement together with the outcome; the statement itself updates every
matching row even when the later scalar extraction raises. -/
def _update (sc : SchemaClass) (key : String) (value : Value)
    (payload : List (String × Value)) : List Row × UpdateResult :=
  if decide (key ∈ sc.fields) &&
      payload.all (fun kv => decide (kv.1 ∈ sc.fields)) then
    let newRows := sc.rows.map (fun r =>
      if litEq (rowGet r key) value then applyPayload payload r else r)
    match (sc.rows.filter (fun r => litEq (rowGet r key) value)).map
        (applyPayload payload) with
    | [] => (newRows, UpdateResult.dbError)
    | [r] => (newRows, UpdateResult.updated r)
    | _ => (newRows, UpdateResult.multiError)
  else (sc.rows, UpdateResult.attrError)

/-- Total order used for `ORDER BY` on a column: values of one scalar
type compare naturally; NULL sorts after every value, matching
PostgreSQL's default NULLS LAST for ascending (and NULLS FIRST for
descending, which reverses this order); distinct scalar types are
ranked to keep the order total, a case a typed column never hits. -/
def valLe : Value → Value → Bool
  | _, Value.vNone => true
  | Value.vNone, _ => false
  | Value.vInt a, Value.vInt b => decide (a ≤ b)
  | Value.vStr a, Value.vStr b => decide (a ≤ b)
  | Value.vInt _, Value.vStr _ => true
  | Value.vStr _, Value.vInt _ => false

/-- The sort key `order_by(asc(by))` / `order_by(desc(by))` reads from
a row; a missing column behaves as NULL. -/
def orderKey (by_ : String) (r : Row) : Value :=
  (rowGet r by_).getD Value.vNone

/-- `BaseRepository._first(by)`:
`select(schema_class).order_by(asc(by)).limit(1)` then
`scalar_one_or_none`; an empty result raises `NotFoundError`
(`Except.error ()`).  A `by` that names no column is a database error
(`none`). -/
def _first (sc : SchemaClass) (by_ : String) : Option (Except Unit Row) :=
  if by_ ∈ sc.fields then
    some (match (sc.rows.mergeSort (fun a b =>
        valLe (orderKey by_ a) (orderKey by_ b))).head? with
      | some r => Except.ok r
      | none => Except.error ())
  else none

/-- `BaseRepository._last(by)`: as `_first` but `order_by(desc(by))`. -/
def _last (sc : SchemaClass) (by_ : String) : Option (Except Unit Row) :=
  if by_ ∈ sc.fields then
    some (match (sc.rows.mergeSort (fun a b =>
        valLe (orderKey by_ b) (orderKey by_ a))).head? with
      | some r => Except.ok r
      | none => Except.error ())
  else none

/-- `BaseRepository.__init__`: `if not self.schema_class` raises
`UnprocessableError` (`Except.error ()`).  A mapped class object is
always truthy, so construction succeeds exactly when one is bound. -/
def initBaseRepository (schema_class : Option SchemaClass) :
    Except Unit SchemaClass :=
  match schema_class with
  | none => Except.error ()
  | some sc => Except.ok sc

/-- The `ErrorResponse` envelope from `utils/response.py`. -/
structure ErrorResponse where
  message : String
  path : List String
deriving DecidableEq, Repr

/-- The `ErrorResponseMulti` envelope. -/
structure ErrorResponseMulti where
  results : List ErrorResponse
deriving DecidableEq, Repr

/-- Pydantic validation of `ErrorResponseMulti`: the `results` field is
`conlist(ErrorResponse, min_length=1)`, so construction fails (`none`)
unless at least one entry is given. -/
def mkErrorResponseMulti (results : List ErrorResponse) :
    Option ErrorResponseMulti :=
  if 1 ≤ results.length then some { results := results } else none

/-- A small mapped class without relationships, used to instantiate the
contracts at concrete inputs. -/
def exampleSchema : SchemaClass :=
  { fields := ["id", "name"]
    rels := []
    rows := [[("id", Value.vInt 1), ("name", Value.vStr "a")],
             [("id", Value.vInt 2), ("name", Value.vStr "b")],
             [("id", Value.vInt 3), ("name", Value.vStr "a")]] }

/-- A relationship descriptor for the concrete examples. -/
def ownerDescr : RelDescr :=
  { relatedFields := ["id", "city"]
    relatedRows := [[("id", Value.vInt 1), ("city", Value.vStr "p")],
                    [("id", Value.vInt 2), ("city", Value.vStr "q")]]
    rootKey := "owner_id"
    relKey := "id" }

/-- A small mapped class with one relationship, used to instantiate the
filter-builder contract at concrete inputs. -/
def exampleSchemaRel : SchemaClass :=
  { fields := ["id", "owner_id"]
    rels := [("owner", ownerDescr)]
    rows := [[("id", Value.vInt 10), ("owner_id", Value.vInt 1)],
             [("id", Value.vInt 11), ("owner_id", Value.vInt 2)]] }

/-- `any` over a mapped list, for condition lists of arbitrary type. -/
theorem list_any_map {A B : Type} (l : List A) (f : A → B) (p : B → Bool) :
    (l.map f).any p = l.any (fun a => p (f a)) := by
  induction l with
  | nil => rfl
  | cons a t ih => simp [ih]

/-- Evaluation of the `_exists` condition list when every filter key is
a field of the mapped class. -/
theorem buildConditions_ok (sc : SchemaClass) (filters : List (String × Value))
    (h : ∀ kv ∈ filters, kv.1 ∈ sc.fields) :
    buildConditions sc filters =
      Except.ok (filters.map (fun kv =>
        fun r => litEq (rowGet r kv.1) (pyNormalize kv.2))) := by
  induction filters with
  | nil => rfl
  | cons kv rest ih =>
    have hk : kv.1 ∈ sc.fields := h kv (List.mem_cons_self kv rest)
    have hr : ∀ x ∈ rest, x.1 ∈ sc.fields :=
      fun x hx => h x (List.mem_cons_of_mem kv hx)
    simp [buildConditions, hk, ih hr]

/-- The `_exists` condition list raises for an unknown filter key. -/
theorem buildConditions_err (sc : SchemaClass) (filters : List (String × Value))
    (h : ∃ kv ∈ filters, kv.1 ∉ sc.fields) :
    ∃ k, buildConditions sc filters = Except.error k := by
  induction filters with
  | nil => simp at h
  | cons kv rest ih =>
    by_cases hk : kv.1 ∈ sc.fields
    · obtain ⟨kv', hmem, hbad⟩ := h
      rcases List.mem_cons.mp hmem with rfl | hmem'
      · exact absurd hk hbad
      · obtain ⟨k, hkk⟩ := ih ⟨kv', hmem', hbad⟩
        exact ⟨k, by simp [buildConditions, hk, hkk]⟩
    · exact ⟨kv.1, by simp [buildConditions, hk]⟩

/-- Claim C6: constructing a repository raises `UnprocessableError`
exactly when no mapped class is bound to the `schema_class` attribute,
and succeeds with the bound class otherwise. -/
theorem initBaseRepository_unprocessable (oc : Option SchemaClass) :
    (initBaseRepository oc = Except.error () ↔ oc = none) ∧
    (∀ sc, initBaseRepository (some sc) = Except.ok sc) := by
  refine ⟨?_, fun sc => rfl⟩
  cases oc <;> simp [initBaseRepository]

/-- Witness for C6 at concrete repository configurations. -/
theorem initBaseRepository_unprocessable_witness :
    initBaseRepository (none : Option SchemaClass) = Except.error () ∧
    initBaseRepository (some exampleSchema) = Except.ok exampleSchema :=
  ⟨(initBaseRepository_unprocessable none).1.mpr rfl,
   (initBaseRepository_unprocessable (some exampleSchema)).2 exampleSchema⟩

/-- Claim C8: `ErrorResponseMulti` validation fails on the empty results
collection and succeeds exactly when at least one `ErrorResponse` entry
is given. -/
theorem errorResponseMulti_requires_entry (results : List ErrorResponse) :
    (mkErrorResponseMulti [] = none) ∧
    ((∃ m, mkErrorResponseMulti results = some m) ↔ results ≠ []) := by
  refine ⟨rfl, ?_, ?_⟩
  · rintro ⟨m, hm⟩ rfl
    simp [mkErrorResponseMulti] at hm
  · intro h
    refine ⟨{ results := results }, ?_⟩
    have h1 : 1 ≤ results.length := by
      cases results with
      | nil => exact absurd rfl h
      | cons a t => simp
    simp [mkErrorResponseMulti, h1]

/-- Witness for C8: a singleton results collection validates. -/
theorem errorResponseMulti_requires_entry_witness :
    ∃ m, mkErrorResponseMulti [{ message := "boom", path := [] }] = some m :=
  (errorResponseMulti_requires_entry
    [{ message := "boom", path := [] }]).2.mpr (by simp)

/-- Claim C3: `_exists` reports whether some row satisfies the
OR-disjunction of the equality filters, string filter values being
stripped and lowercased first and other values compared as-is; an
unknown filter key raises `UnprocessableError`; and the filters
`{a: "X ", b: 2}` match a row whose `a` column holds `"x"`. -/
theorem exists_or_disjunction (sc : SchemaClass)
    (filters : List (String × Value)) :
    ((∀ kv ∈ filters, kv.1 ∈ sc.fields) →
      _exists sc filters = Except.ok (sc.rows.any (fun r =>
        filters.any (fun kv => litEq (rowGet r kv.1) (pyNormalize kv.2))))) ∧
    ((∃ kv ∈ filters, kv.1 ∉ sc.fields) →
      ∃ k, _exists sc filters = Except.error k) ∧
    (_exists { fields := ["a", "b"], rels := [],
               rows := [[("a", Value.vStr "x"), ("b", Value.vInt 3)]] }
      [("a", Value.vStr "X "), ("b", Value.vInt 2)] = Except.ok true) := by
  refine ⟨?_, ?_, by rfl⟩
  · intro h
    simp only [_exists, buildConditions_ok sc filters h, list_any_map]
  · intro h
    obtain ⟨k, hk⟩ := buildConditions_err sc filters h
    exact ⟨k, by simp [_exists, hk]⟩

/-- Witness for C3 at a concrete table and filter mapping. -/
theorem exists_or_disjunction_witness :
    _exists exampleSchema [("name", Value.vStr " A "), ("id", Value.vInt 9)] =
      Except.ok true := by
  have h := (exists_or_disjunction exampleSchema
    [("name", Value.vStr " A "), ("id", Value.vInt 9)]).1 (by decide)
  rw [h]
  rfl

/-- Claim C10: `_exists` normalizes only the caller-supplied string
filter values, never the stored column values: a stored `"X "` is not
matched by the filter values `"x"` or `"X "`, while a stored `"x"` is
matched by the filter value `"X "`. -/
theorem exists_normalizes_filter_only (sc : SchemaClass) (k s : String) :
    (k ∈ sc.fields →
      _exists sc [(k, Value.vStr s)] = Except.ok (sc.rows.any (fun r =>
        litEq (rowGet r k) (Value.vStr (pyLower (pyStrip s)))))) ∧
    (_exists { fields := ["a"], rels := [], rows := [[("a", Value.vStr "X ")]] }
        [("a", Value.vStr "x")] = Except.ok false) ∧
    (_exists { fields := ["a"], rels := [], rows := [[("a", Value.vStr "X ")]] }
        [("a", Value.vStr "X ")] = Except.ok false) ∧
    (_exists { fields := ["a"], rels := [], rows := [[("a", Value.vStr "x")]] }
        [("a", Value.vStr "X ")] = Except.ok true) := by
  refine ⟨?_, by rfl, by rfl, by rfl⟩
  intro hk
  have h : ∀ kv ∈ [(k, Value.vStr s)], kv.1 ∈ sc.fields := by
    intro kv hkv
    rcases List.mem_singleton.mp hkv with rfl
    exact hk
  simp only [_exists, buildConditions_ok sc _ h, list_any_map]
  simp [pyNormalize]

/-- Witness for C10 at a concrete table: the padded, upper-case filter
value matches the stored lower-case value. -/
theorem exists_normalizes_filter_only_witness :
    _exists { fields := ["a"], rels := [], rows := [[("a", Value.vStr "x")]] }
        [("a", Value.vStr " X ")] = Except.ok true := by
  have h := (exists_normalizes_filter_only
    { fields := ["a"], rels := [], rows := [[("a", Value.vStr "x")]] }
    "a" " X ").1 (by decide)
  rw [h]
  rfl

/-- Unfolding of row access over a cons cell. -/
theorem rowGet_cons (a : String) (b : Value) (t : Row) (c : String) :
    rowGet ((a, b) :: t) c = if a = c then some b else rowGet t c := by
  by_cases h : a = c <;> simp [rowGet, List.find?, h]

/-- Unfolding of `SET k = v` over a cons cell. -/
theorem setCol_cons (a : String) (b : Value) (t : Row) (k : String) (v : Value) :
    setCol ((a, b) :: t) k v =
      (if a = k then (a, v) else (a, b)) :: setCol t k v := by
  simp only [setCol, List.map_cons]

/-- Column-level effect of `SET k = v` on one row: the targeted column
takes the new value (when the row has it), other columns keep theirs. -/
theorem rowGet_setCol (r : Row) (k : String) (v : Value) (c : String) :
    rowGet (setCol r k v) c =
      if c = k then (rowGet r k).map (fun _ => v) else rowGet r c := by
  induction r with
  | nil => simp [rowGet, setCol]
  | cons kv t ih =>
    obtain ⟨a, b⟩ := kv
    by_cases h1 : a = k
    · by_cases h2 : c = k
      · have hac : a = c := by rw [h1, h2]
        simp [setCol_cons, rowGet_cons, h1, h2, hac, ih]
      · have hac : ¬ a = c := fun h => h2 (h ▸ h1)
        have hkc : ¬ k = c := fun h => h2 h.symm
        simp [setCol_cons, rowGet_cons, h1, h2, hac, hkc, ih]
    · by_cases h2 : c = k
      · have hac : ¬ a = c := fun h => h1 (h.trans h2)
        subst h2
        simp [setCol_cons, rowGet_cons, h1, hac, ih]
      · simp [setCol_cons, rowGet_cons, h1, h2, ih]

/-- Claim C4: `_update(key, value, payload)` sets the payload columns on
every row where `key == value`; raises `DatabaseError` when zero rows
were updated; and when exactly one row matches returns that row's new
post-update state. -/
theorem update_contract (sc : SchemaClass) (key : String) (value : Value)
    (payload : List (String × Value))
    (hk : key ∈ sc.fields) (hp : ∀ kv ∈ payload, kv.1 ∈ sc.fields) :
    ((_update sc key value payload).1 = sc.rows.map (fun r =>
        if litEq (rowGet r key) value then applyPayload payload r else r)) ∧
    (sc.rows.filter (fun r => litEq (rowGet r key) value) = [] →
      (_update sc key value payload).2 = UpdateResult.dbError) ∧
    (∀ r, sc.rows.filter (fun r => litEq (rowGet r key) value) = [r] →
      (_update sc key value payload).2 =
        UpdateResult.updated (applyPayload payload r)) ∧
    (∀ (r : Row) (c : String) (v : Value),
      rowGet (setCol r c v) c = (rowGet r c).map (fun _ => v)) := by
  have hcond : (decide (key ∈ sc.fields) &&
      payload.all (fun kv => decide (kv.1 ∈ sc.fields))) = true := by
    simp [hk, List.all_eq_true]
    exact fun a b hab => hp (a, b) hab
  refine ⟨?_, ?_, ?_, ?_⟩
  · simp only [_update, hcond, if_true]
    cases hm : (sc.rows.filter (fun r => litEq (rowGet r key) value)).map
        (applyPayload payload) with
    | nil => simp
    | cons a t => cases t <;> simp
  · intro hz
    simp only [_update, hcond, if_true, hz, List.map_nil]
  · intro r hone
    simp only [_update, hcond, if_true, hone, List.map_cons, List.map_nil]
  · intro r c v
    simp [rowGet_setCol]

/-- Witness for C4: updating the single matching row returns its new
state. -/
theorem update_contract_witness :
    (_update exampleSchema "id" (Value.vInt 2) [("name", Value.vStr "c")]).2 =
      UpdateResult.updated (applyPayload [("name", Value.vStr "c")]
        [("id", Value.vInt 2), ("name", Value.vStr "b")]) :=
  (update_contract exampleSchema "id" (Value.vInt 2) [("name", Value.vStr "c")]
    (by decide) (by decide)).2.2.1
    [("id", Value.vInt 2), ("name", Value.vStr "b")] (by decide)

/-- Claim C9: a filter mapping (`find_by`) or key/value pair (`_update`)
matching more than one row makes the one-or-none scalar extraction raise
`MultipleResultsFound` instead of returning one of the rows. -/
theorem multi_row_match_raises (sc : SchemaClass)
    (filters : List (String × Value)) (key : String) (value : Value)
    (payload : List (String × Value))
    (hf : ∀ kv ∈ filters, kv.1 ∈ sc.fields)
    (hk : key ∈ sc.fields) (hp : ∀ kv ∈ payload, kv.1 ∈ sc.fields) :
    (2 ≤ (sc.rows.filter (fun r =>
        filters.all (fun kv => litEq (rowGet r kv.1) kv.2))).length →
      find_by sc filters [] = FindResult.multiError) ∧
    (2 ≤ (sc.rows.filter (fun r => litEq (rowGet r key) value)).length →
      (_update sc key value payload).2 = UpdateResult.multiError) := by
  have hcondf : filters.all (fun kv => decide (kv.1 ∈ sc.fields)) = true := by
    simp [List.all_eq_true]
    exact fun a b hab => hf (a, b) hab
  have hcondu : (decide (key ∈ sc.fields) &&
      payload.all (fun kv => decide (kv.1 ∈ sc.fields))) = true := by
    simp [hk, List.all_eq_true]
    exact fun a b hab => hp (a, b) hab
  constructor
  · intro h2
    simp only [find_by, List.all_nil, if_true, hcondf]
    cases hm : sc.rows.filter (fun r =>
        filters.all (fun kv => litEq (rowGet r kv.1) kv.2)) with
    | nil => rw [hm] at h2; simp at h2
    | cons a t =>
      cases t with
      | nil => rw [hm] at h2; simp at h2
      | cons b u => rfl
  · intro h2
    simp only [_update, hcondu, if_true]
    cases hm : sc.rows.filter (fun r => litEq (rowGet r key) value) with
    | nil => rw [hm] at h2; simp at h2
    | cons a t =>
      cases t with
      | nil => rw [hm] at h2; simp at h2
      | cons b u => simp

/-- Witness for C9: two rows share the filtered value, both operations
raise. -/
theorem multi_row_match_raises_witness :
    find_by exampleSchema [("name", Value.vStr "a")] [] =
        FindResult.multiError ∧
    (_update exampleSchema "name" (Value.vStr "a")
        [("name", Value.vStr "z")]).2 = UpdateResult.multiError := by
  have h := multi_row_match_raises exampleSchema [("name", Value.vStr "a")]
    "name" (Value.vStr "a") [("name", Value.vStr "z")]
    (by decide) (by decide) (by decide)
  exact ⟨h.1 (by decide), h.2 (by decide)⟩

/-- Evaluation of `find_by` down to the matched-row list when the
relationship list is empty and every filter key is a field. -/
theorem find_by_eval (sc : SchemaClass) (filters : List (String × Value))
    (hf : ∀ kv ∈ filters, kv.1 ∈ sc.fields) :
    find_by sc filters [] =
      (match sc.rows.filter (fun r =>
          filters.all (fun kv => litEq (rowGet r kv.1) kv.2)) with
        | [] => FindResult.notFound
        | [r] => FindResult.found r
        | _ => FindResult.multiError) := by
  have hcondf : filters.all (fun kv => decide (kv.1 ∈ sc.fields)) = true := by
    simp [List.all_eq_true]
    exact fun a b hab => hf (a, b) hab
  simp only [find_by, List.all_nil, if_true, hcondf]

/-- A table holding two rows that both satisfy the filter: some row
matches every key/value pair, yet `find_by` returns no row (the
one-or-none extraction raises `MultipleResultsFound`), refuting the
claimed equivalence as stated. -/
theorem find_by_some_match_counterexample :
    (∃ r ∈ ({ fields := ["a"], rels := [],
              rows := [[("a", Value.vInt 1)], [("a", Value.vInt 1)]] } :
          SchemaClass).rows,
      ∀ kv ∈ ([("a", Value.vInt 1)] : List (String × Value)),
        litEq (rowGet r kv.1) kv.2) ∧
    (∀ r : Row, find_by { fields := ["a"], rels := [],
                          rows := [[("a", Value.vInt 1)],
                                   [("a", Value.vInt 1)]] }
        [("a", Value.vInt 1)] [] ≠ FindResult.found r) := by
  constructor
  · exact ⟨[("a", Value.vInt 1)], by decide, by decide⟩
  · intro r h
    have hmulti : find_by { fields := ["a"], rels := [],
                            rows := [[("a", Value.vInt 1)],
                                     [("a", Value.vInt 1)]] }
        [("a", Value.vInt 1)] [] = FindResult.multiError := by decide
    rw [hmulti] at h
    exact FindResult.noConfusion h

/-- Claim C5 (amended): with plain keys naming fields of the mapped
class, `find_by` returns a row exactly when precisely one existing row
matches every key/value pair (and it returns that row), and returns an
empty result (`None`, no error) exactly when no row matches. -/
theorem find_by_unique_match (sc : SchemaClass)
    (filters : List (String × Value))
    (hf : ∀ kv ∈ filters, kv.1 ∈ sc.fields) :
    (∀ r, find_by sc filters [] = FindResult.found r ↔
      sc.rows.filter (fun r' =>
        filters.all (fun kv => litEq (rowGet r' kv.1) kv.2)) = [r]) ∧
    (find_by sc filters [] = FindResult.notFound ↔
      ∀ r ∈ sc.rows, ¬ ∀ kv ∈ filters, litEq (rowGet r kv.1) kv.2) := by
  rw [find_by_eval sc filters hf]
  constructor
  · intro r
    cases hm : sc.rows.filter (fun r' =>
        filters.all (fun kv => litEq (rowGet r' kv.1) kv.2)) with
    | nil => simp
    | cons a t =>
      cases t with
      | nil =>
        constructor
        · intro h
          cases h
          rfl
        · intro h
          cases h
          rfl
      | cons b u => simp
  · cases hm : sc.rows.filter (fun r' =>
        filters.all (fun kv => litEq (rowGet r' kv.1) kv.2)) with
    | nil =>
      simp only []
      constructor
      · intro _ r hr hall
        have : r ∈ sc.rows.filter (fun r' =>
            filters.all (fun kv => litEq (rowGet r' kv.1) kv.2)) := by
          rw [List.mem_filter]
          refine ⟨hr, ?_⟩
          simp [List.all_eq_true]
          exact fun a b hab => hall (a, b) hab
        rw [hm] at this
        simp at this
      · intro _
        trivial
    | cons a t =>
      have ha : a ∈ sc.rows ∧ filters.all
          (fun kv => litEq (rowGet a kv.1) kv.2) = true := by
        have : a ∈ sc.rows.filter (fun r' =>
            filters.all (fun kv => litEq (rowGet r' kv.1) kv.2)) := by
          rw [hm]
          exact List.mem_cons_self a t
        exact List.mem_filter.mp this
      constructor
      · intro h
        cases t <;> exact FindResult.noConfusion h
      · intro h
        exfalso
        refine h a ha.1 ?_
        intro kv hkv
        have := List.all_eq_true.mp ha.2 kv hkv
        simpa using this

/-- Witness for C5 (amended): a uniquely matching filter returns the
row. -/
theorem find_by_unique_match_witness :
    find_by exampleSchema [("name", Value.vStr "b")] [] =
      FindResult.found [("id", Value.vInt 2), ("name", Value.vStr "b")] :=
  ((find_by_unique_match exampleSchema [("name", Value.vStr "b")]
    (by decide)).1 [("id", Value.vInt 2), ("name", Value.vStr "b")]).mpr
    (by decide)

/-- The `ORDER BY` comparison is reflexive. -/
theorem valLe_refl (a : Value) : valLe a a = true := by
  cases a <;> simp [valLe]

/-- The `ORDER BY` comparison is total. -/
theorem valLe_total (a b : Value) : (valLe a b || valLe b a) = true := by
  cases a <;> cases b <;> simp [valLe] <;> exact le_total _ _

/-- The `ORDER BY` comparison is transitive. -/
theorem valLe_trans (a b c : Value) :
    valLe a b = true → valLe b c = true → valLe a c = true := by
  cases a <;> cases b <;> cases c <;> simp [valLe] <;>
    exact fun h1 h2 => le_trans h1 h2

/-- The head of a sorted permutation is a minimum: the row an
`ORDER BY ... LIMIT 1` statement returns. -/
theorem head_mergeSort_le {A : Type} (le : A → A → Bool)
    (htrans : ∀ a b c, le a b = true → le b c = true → le a c = true)
    (htotal : ∀ a b, (le a b || le b a) = true)
    (l : List A) (hl : l ≠ []) :
    ∃ r, (l.mergeSort le).head? = some r ∧ r ∈ l ∧ ∀ x ∈ l, le r x = true := by
  have hperm := List.mergeSort_perm l le
  have hsorted := List.sorted_mergeSort htrans htotal l
  cases hms : l.mergeSort le with
  | nil =>
    rw [hms] at hperm
    exact absurd hperm.symm.eq_nil hl
  | cons r t =>
    rw [hms] at hperm hsorted
    have hrt : ∀ x ∈ t, le r x = true := (List.pairwise_cons.mp hsorted).1
    refine ⟨r, rfl, hperm.subset (List.mem_cons_self r t), ?_⟩
    intro x hx
    have hx' : x ∈ r :: t := hperm.symm.subset hx
    rcases List.mem_cons.mp hx' with rfl | hxt
    · have := htotal x x
      simpa using this
    · exact hrt x hxt

/-- Claim C7: `_first` returns a row with the minimum value of the given
orderable field and `_last` one with the maximum; `_get`, `_first` and
`_last` raise `NotFoundError` exactly when zero rows match (no row with
the given primary key, resp. an empty table). -/
theorem first_last_get_contract (sc : SchemaClass) (by_ : String) (id_ : Int)
    (hb : by_ ∈ sc.fields) :
    ((_first sc by_ = some (Except.error ()) ↔ sc.rows = []) ∧
     (_last sc by_ = some (Except.error ()) ↔ sc.rows = [])) ∧
    (sc.rows ≠ [] →
      (∃ r, _first sc by_ = some (Except.ok r) ∧ r ∈ sc.rows ∧
        ∀ x ∈ sc.rows, valLe (orderKey by_ r) (orderKey by_ x) = true) ∧
      (∃ r, _last sc by_ = some (Except.ok r) ∧ r ∈ sc.rows ∧
        ∀ x ∈ sc.rows, valLe (orderKey by_ x) (orderKey by_ r) = true)) ∧
    (_get sc id_ [] = FindResult.notFound ↔
      ∀ r ∈ sc.rows, rowGet r "id" ≠ some (Value.vInt id_)) := by
  have hfirstNil : (sc.rows.mergeSort (fun a b =>
      valLe (orderKey by_ a) (orderKey by_ b))) = [] ↔ sc.rows = [] := by
    constructor
    · intro h
      have hperm := List.mergeSort_perm sc.rows (fun a b =>
        valLe (orderKey by_ a) (orderKey by_ b))
      rw [h] at hperm
      exact hperm.symm.eq_nil
    · intro h
      rw [h]
      simp
  have hlastNil : (sc.rows.mergeSort (fun a b =>
      valLe (orderKey by_ b) (orderKey by_ a))) = [] ↔ sc.rows = [] := by
    constructor
    · intro h
      have hperm := List.mergeSort_perm sc.rows (fun a b =>
        valLe (orderKey by_ b) (orderKey by_ a))
      rw [h] at hperm
      exact hperm.symm.eq_nil
    · intro h
      rw [h]
      simp
  refine ⟨⟨?_, ?_⟩, ?_, ?_⟩
  · simp only [_first, hb, if_true]
    cases hms : sc.rows.mergeSort (fun a b =>
        valLe (orderKey by_ a) (orderKey by_ b)) with
    | nil => simp [hfirstNil.mp hms]
    | cons r t =>
      simp only [List.head?]
      constructor
      · intro h
        exact absurd h (by simp)
      · intro h
        rw [← hfirstNil] at h
        rw [hms] at h
        exact List.noConfusion h
  · simp only [_last, hb, if_true]
    cases hms : sc.rows.mergeSort (fun a b =>
        valLe (orderKey by_ b) (orderKey by_ a)) with
    | nil => simp [hlastNil.mp hms]
    | cons r t =>
      simp only [List.head?]
      constructor
      · intro h
        exact absurd h (by simp)
      · intro h
        rw [← hlastNil] at h
        rw [hms] at h
        exact List.noConfusion h
  · intro hne
    constructor
    · obtain ⟨r, hh, hmem, hmin⟩ := head_mergeSort_le
        (fun a b => valLe (orderKey by_ a) (orderKey by_ b))
        (fun a b c => valLe_trans _ _ _)
        (fun a b => valLe_total _ _) sc.rows hne
      refine ⟨r, ?_, hmem, hmin⟩
      simp only [_first, hb, if_true, hh]
    · obtain ⟨r, hh, hmem, hmax⟩ := head_mergeSort_le
        (fun a b => valLe (orderKey by_ b) (orderKey by_ a))
        (fun a b c hab hbc => valLe_trans _ _ _ hbc hab)
        (fun a b => valLe_total _ _) sc.rows hne
      refine ⟨r, ?_, hmem, hmax⟩
      simp only [_last, hb, if_true, hh]
  · simp only [_get, List.all_nil, if_true]
    cases hm : sc.rows.filter (fun r =>
        litEq (rowGet r "id") (Value.vInt id_)) with
    | nil =>
      have hall := List.filter_eq_nil_iff.mp hm
      constructor
      · intro _ r hr
        have := hall r hr
        simpa [litEq] using this
      · intro _
        rfl
    | cons a t =>
      have ha : a ∈ sc.rows ∧ litEq (rowGet a "id") (Value.vInt id_) = true := by
        have : a ∈ sc.rows.filter (fun r =>
            litEq (rowGet r "id") (Value.vInt id_)) := by
          rw [hm]
          exact List.mem_cons_self a t
        exact List.mem_filter.mp this
      constructor
      · intro h
        cases t <;> exact FindResult.noConfusion h
      · intro h
        exfalso
        exact h a ha.1 (by simpa [litEq] using ha.2)

/-- Witness for C7: minimum and maximum of a concrete table, and the
primary-key miss. -/
theorem first_last_get_contract_witness :
    (∃ r, _first exampleSchema "id" = some (Except.ok r) ∧
      r ∈ exampleSchema.rows ∧
      ∀ x ∈ exampleSchema.rows,
        valLe (orderKey "id" r) (orderKey "id" x) = true) ∧
    (_get exampleSchema 9 [] = FindResult.notFound ↔
      ∀ r ∈ exampleSchema.rows, rowGet r "id" ≠ some (Value.vInt 9)) := by
  have h := first_last_get_contract exampleSchema "id" 9 (by decide)
  exact ⟨(h.2.1 (by decide)).1, h.2.2⟩

/-- Claim C2: `build_filters` treats a key containing the separator as
`relationship__field`, joining the named relationship of the mapped
class and applying the equality predicate on the named field of the
related class — the result equals joining the relationship and then
filtering on the field; a plain key becomes an equality predicate
directly on the mapped class; and two dotted filters on the same
relationship keep every root row having a related row that satisfies
both predicates. -/
theorem build_filters_semantics :
    (∀ (sc : SchemaClass) (attr rel field : String) (v : Value) (R : RelDescr),
      splitRel attr = some (rel, field) →
      sc.rels.lookup rel = some R →
      field ∈ R.relatedFields →
      build_filters sc (selectQ sc) [(attr, v)] = some
        { tuples := sc.rows.flatMap (fun root =>
            ((R.relatedRows.filter (fun rr =>
                joinEq (rowGet root R.rootKey) (rowGet rr R.relKey))).filter
              (fun rr => litEq (rowGet rr field) v)).map
              (fun rr => { root := root, binds := [(rel, rr)] }))
          joined := [rel]
          eager := [] }) ∧
    (∀ (sc : SchemaClass) (attr : String) (v : Value),
      splitRel attr = none →
      attr ∈ sc.fields →
      build_filters sc (selectQ sc) [(attr, v)] = some
        { tuples := (sc.rows.filter (fun r => litEq (rowGet r attr) v)).map
            (fun r => { root := r, binds := [] })
          joined := []
          eager := [] }) ∧
    (∀ (sc : SchemaClass) (a1 a2 rel f1 f2 : String) (v1 v2 : Value)
        (R : RelDescr) (root : Row),
      splitRel a1 = some (rel, f1) →
      splitRel a2 = some (rel, f2) →
      sc.rels.lookup rel = some R →
      f1 ∈ R.relatedFields → f2 ∈ R.relatedFields →
      root ∈ sc.rows →
      (∃ rr ∈ R.relatedRows,
        joinEq (rowGet root R.rootKey) (rowGet rr R.relKey) = true ∧
        litEq (rowGet rr f1) v1 = true ∧ litEq (rowGet rr f2) v2 = true) →
      ∃ q', build_filters sc (selectQ sc) [(a1, v1), (a2, v2)] = some q' ∧
        root ∈ q'.tuples.map Tuple.root) := by
  refine ⟨?_, ?_, ?_⟩
  · intro sc attr rel field v R hsplit hlook hfield
    simp only [build_filters, List.foldlM_cons, List.foldlM_nil, hsplit,
      hlook, joinRel, selectQ, List.not_mem_nil, if_false, filterRel, hfield,
      if_true, Option.some_bind, bind, Option.bind]
    simp only [List.flatMap_map, List.filter_flatMap, List.filter_map,
      Function.comp_def, List.lookup_cons_self]
    rfl
  · intro sc attr v hsplit hattr
    simp only [build_filters, List.foldlM_cons, List.foldlM_nil, hsplit,
      filterRoot, hattr, if_true, selectQ, Option.some_bind, bind, Option.bind]
    simp only [List.filter_map, Function.comp_def]
    rfl
  · intro sc a1 a2 rel f1 f2 v1 v2 R root hs1 hs2 hlook hf1 hf2 hroot hex
    obtain ⟨rr, hrrmem, hjoin, h1, h2⟩ := hex
    simp only [build_filters, List.foldlM_cons, List.foldlM_nil, hs1, hs2,
      hlook, joinRel, selectQ, List.not_mem_nil, if_false, filterRel, hf1,
      hf2, if_true, Option.some_bind, bind, Option.bind,
      List.mem_singleton]
    refine ⟨_, rfl, ?_⟩
    rw [List.mem_map]
    refine ⟨{ root := root, binds := [(rel, rr)] }, ?_, rfl⟩
    rw [List.mem_filter]
    refine ⟨?_, ?_⟩
    · rw [List.mem_filter]
      refine ⟨?_, ?_⟩
      · rw [List.mem_flatMap]
        refine ⟨{ root := root, binds := [] },
          List.mem_map_of_mem _ hroot, ?_⟩
        rw [List.mem_map]
        exact ⟨rr, List.mem_filter.mpr ⟨hrrmem, hjoin⟩, rfl⟩
      · simp [List.lookup_cons_self, h1]
    · simp [List.lookup_cons_self, h2]

/-- Witness for C2: the dotted filter on the concrete schema reduces to
the join-then-filter query. -/
theorem build_filters_semantics_witness :
    build_filters exampleSchemaRel (selectQ exampleSchemaRel)
        [("owner__city", Value.vStr "p")] = some
      { tuples := exampleSchemaRel.rows.flatMap (fun root =>
          ((ownerDescr.relatedRows.filter (fun rr =>
              joinEq (rowGet root ownerDescr.rootKey)
                (rowGet rr ownerDescr.relKey))).filter
            (fun rr => litEq (rowGet rr "city") (Value.vStr "p"))).map
            (fun rr => { root := root, binds := [("owner", rr)] }))
        joined := ["owner"]
        eager := [] } :=
  build_filters_semantics.1 exampleSchemaRel "owner__city" "owner" "city"
    (Value.vStr "p") ownerDescr (by decide) (by decide) (by decide)

/-- Evaluation of `_all_paginated` once the filtered query is built and
the window parameters are non-negative. -/
theorem all_paginated_eval (sc : SchemaClass) (relationships : List String)
    (filters : List (String × Value)) (q : Query)
    (hq : paginationQuery sc relationships filters = some q)
    (page page_size : Int) (hp : 1 ≤ page) (hs : 0 ≤ page_size) :
    _all_paginated sc page page_size relationships filters = some
      { total_count := q.tuples.length
        page := page
        page_size := page_size
        result := ((q.tuples.map Tuple.root).drop
          ((page - 1) * page_size).toNat).take page_size.toNat } := by
  have h1 : ¬ page_size < 0 := by omega
  have h2 : ¬ (page - 1) * page_size < 0 := by
    have : 0 ≤ (page - 1) * page_size := mul_nonneg (by omega) hs
    omega
  simp [_all_paginated, hq, h1, h2, List.map_take, List.map_drop]

/-- Splitting a list into `n` consecutive windows of size `s` starting
at offsets `i * s` and concatenating them yields the list back, once
`n * s` covers its length. -/
theorem flatMap_range_chunks {A : Type} (l : List A) (s n : Nat)
    (hn : l.length ≤ n * s) :
    (List.range n).flatMap (fun i => (l.drop (i * s)).take s) = l := by
  induction n generalizing l with
  | zero =>
    have hnil : l = [] := List.eq_nil_of_length_eq_zero (by omega)
    simp [hnil]
  | succ n ih =>
    rw [List.range_succ_eq_map, List.flatMap_cons, List.flatMap_map]
    have hbody : ((fun i => (l.drop (i * s)).take s) ∘ Nat.succ)
        = (fun i => (((l.drop s).drop (i * s)).take s)) := by
      funext i
      simp only [Function.comp_def, List.drop_drop]
      have : Nat.succ i * s = s + i * s := by
        rw [Nat.succ_mul, Nat.add_comm]
      rw [this]
    have hn' : (l.drop s).length ≤ n * s := by
      rw [List.length_drop]
      rw [Nat.succ_mul] at hn
      exact Nat.sub_le_iff_le_add.mpr hn
    calc (l.drop (0 * s)).take s ++
          (List.range n).flatMap ((fun i => (l.drop (i * s)).take s) ∘ Nat.succ)
        = l.take s ++ (List.range n).flatMap
            (fun i => (((l.drop s).drop (i * s)).take s)) := by
          rw [hbody]; simp
      _ = l.take s ++ l.drop s := by rw [ih (l.drop s) hn']
      _ = l := List.take_append_drop s l

/-- The ceiling page count covers the full row count. -/
theorem length_le_ceil_mul (len s : Nat) (hs : 0 < s) :
    len ≤ ((len + s - 1) / s) * s := by
  have hdm := Nat.div_add_mod (len + s - 1) s
  have hmod : (len + s - 1) % s < s := Nat.mod_lt _ hs
  rw [Nat.mul_comm]
  generalize hT : s * ((len + s - 1) / s) = T at hdm ⊢
  omega

/-- `toNat` of a product of a cast natural and a non-negative integer. -/
theorem natCast_mul_toNat (i : Nat) (s : Int) (hs : 0 ≤ s) :
    ((i : Int) * s).toNat = i * s.toNat := by
  obtain ⟨n, rfl⟩ : ∃ n : Nat, s = (n : Int) :=
    ⟨s.toNat, (Int.toNat_of_nonneg hs).symm⟩
  rw [← Nat.cast_mul, Int.toNat_natCast, Int.toNat_natCast]

/-- Claim C1: for `page ≥ 1` and `page_size > 0`, `_all_paginated`
counts the filter-matched rows before windowing, applies
`offset = (page-1) * page_size` and `limit = page_size`, returns at most
`page_size` rows with `total_count` the full matched count independent
of the window, and concatenating pages `1..ceil(total_count/page_size)`
reconstructs the full filtered row sequence exactly once per row. -/
theorem all_paginated_pages (sc : SchemaClass) (relationships : List String)
    (filters : List (String × Value)) (page page_size : Int) (q : Query)
    (hq : paginationQuery sc relationships filters = some q)
    (hp : 1 ≤ page) (hs : 0 < page_size) :
    ∃ P, _all_paginated sc page page_size relationships filters = some P ∧
      P.result.length ≤ page_size.toNat ∧
      P.total_count = q.tuples.length ∧
      P.page = page ∧ P.page_size = page_size ∧
      (List.range ((q.tuples.length + page_size.toNat - 1) /
          page_size.toNat)).flatMap
        (fun i => ((_all_paginated sc ((i : Int) + 1) page_size relationships
            filters).map Paginated.result).getD [])
        = q.tuples.map Tuple.root := by
  refine ⟨_, all_paginated_eval sc relationships filters q hq page page_size
    hp (le_of_lt hs), ?_, rfl, rfl, rfl, ?_⟩
  · simp only [List.length_take]
    exact inf_le_left
  · have hpage : ∀ i : Nat,
        _all_paginated sc ((i : Int) + 1) page_size relationships filters
          = some { total_count := q.tuples.length, page := (i : Int) + 1,
                   page_size := page_size,
                   result := ((q.tuples.map Tuple.root).drop
                     (i * page_size.toNat)).take page_size.toNat } := by
      intro i
      have h := all_paginated_eval sc relationships filters q hq
        ((i : Int) + 1) page_size (by omega) (le_of_lt hs)
      have e : (((i : Int) + 1 - 1) * page_size).toNat
          = i * page_size.toNat := by
        rw [show ((i : Int) + 1 - 1) = (i : Int) by ring,
          natCast_mul_toNat i page_size (le_of_lt hs)]
      rw [h, e]
    have hbody : (fun i : Nat => ((_all_paginated sc ((i : Int) + 1) page_size
        relationships filters).map Paginated.result).getD [])
        = (fun i : Nat => (((q.tuples.map Tuple.root).drop
            (i * page_size.toNat)).take page_size.toNat)) := by
      funext i
      rw [hpage i]
      rfl
    rw [hbody]
    refine flatMap_range_chunks (q.tuples.map Tuple.root) page_size.toNat _ ?_
    rw [List.length_map]
    exact length_le_ceil_mul q.tuples.length page_size.toNat (by omega)

/-- Witness for C1: pagination of the concrete three-row table with
page 1 of size 2. -/
theorem all_paginated_pages_witness :
    ∃ P, _all_paginated exampleSchema 1 2 [] [] = some P ∧
      P.result.length ≤ (2 : Int).toNat ∧
      P.total_count = (selectQ exampleSchema).tuples.length ∧
      P.page = 1 ∧ P.page_size = 2 ∧
      (List.range (((selectQ exampleSchema).tuples.length +
          (2 : Int).toNat - 1) / (2 : Int).toNat)).flatMap
        (fun i => ((_all_paginated exampleSchema ((i : Int) + 1) 2 []
            []).map Paginated.result).getD [])
        = (selectQ exampleSchema).tuples.map Tuple.root :=
  all_paginated_pages exampleSchema [] [] 1 2 (selectQ exampleSchema)
    (by decide) (by decide) (by decide)
